import Mathlib

/-!
Shallow embedding of the hlas registry (src/core/registry.ts) and the parts
of the DOM / driver.js environment it interacts with.

Modelling conventions:
- JS `Map<string, ComponentEntry>` is an insertion-ordered association list;
  `set` on an existing key overwrites the value in place (JS Maps keep the
  original insertion position), `set` on a fresh key appends.
- DOM elements are references (`Elem.ref : Nat`) into a store of attribute
  lists held in the registry state; `setAttribute` / `getAttribute` act on
  that store.  `Elem.isHTML` models `instanceof HTMLElement`.
- `String.prototype.toLowerCase` is modelled character-wise (ASCII case
  mapping, as in `Char.toLower`); `String.prototype.includes` is substring
  occurrence on the character lists.
- The driver.js overlay engine is modelled by its call trace plus the overlay
  it currently shows: `highlight(cfg)` shows `cfg`, `destroy()` clears the
  overlay and is idempotent.  The tour driver records its configured steps
  and whether `drive()` was called.
- `setTimeout` for the highlight auto-teardown is a list of absolute fire
  times; `advanceTime` moves the clock and runs every due callback (each one
  is `highlightDriverInstance?.destroy()`).
- `console.error` / `console.warn` calls append structured `LogEntry`s.
- `JSON.parse` is a recursive-descent JSON parser; numbers are kept as their
  source lexemes (their numeric value plays no role in the registry).
-/

namespace Hlas

/-- A JSON value, as produced by a successful JSON parse.  Numbers are kept
as their raw lexeme. -/
inductive Json where
  | null : Json
  | bool (b : Bool) : Json
  | num (lexeme : String) : Json
  | str (s : String) : Json
  | arr (elems : List Json) : Json
  | obj (fields : List (String × Json)) : Json
deriving Repr

/-- Parameter type tag of an action parameter (TS union of string literals). -/
inductive ParamType where
  | string | number | boolean | object
deriving Repr, DecidableEq

/-- Definition for a parameter an action accepts (src/core/types.ts,
ActionParameter). -/
structure ActionParameter where
  name : String
  description : Option String
  required : Option Bool
  type : Option ParamType
  defaultValue : Option Json
deriving Repr

/-- Action schema defining the shape of an action (src/core/types.ts,
ActionSchema). -/
structure ActionSchema where
  id : String
  name : String
  description : Option String
  parameters : Option (List ActionParameter)
deriving Repr

/-- A DOM element reference: an index into the attribute store plus whether
the value is an HTMLElement (for the `instanceof HTMLElement` checks). -/
structure Elem where
  ref : Nat
  isHTML : Bool
deriving Repr, DecidableEq

/-- Registry component entry (src/core/types.ts, ComponentEntry). -/
structure ComponentEntry where
  id : String
  element : Elem
  actions : List ActionSchema
  name : String
  description : Option String
deriving Repr

/-- Screen reading result (src/core/types.ts, ScreenComponent).  `content`
is `some (.inl json)` for a successfully parsed attribute, `some (.inr raw)`
for the raw-string fallback, `none` when the attribute is absent or empty. -/
structure ScreenComponent where
  id : String
  name : String
  description : Option String
  visible : Bool
  actions : List ActionSchema
  content : Option (Json ⊕ String)
deriving Repr

/-- A tour step (src/core/registry.ts, TourStep).  `position` and `align`
are the TS string-literal unions; `alignEnd` models the literal value end. -/
inductive Side where
  | top | right | bottom | left
deriving Repr, DecidableEq

/-- Alignment literal union for tour steps. -/
inductive Align where
  | start | center | alignEnd
deriving Repr, DecidableEq

/-- Tour step record passed to startTour. -/
structure TourStep where
  id : String
  title : Option String
  description : Option String
  position : Option Side
  align : Option Align
deriving Repr, DecidableEq

/-- Popover configuration of one driver.js step, after the defaults in
startTour have been applied. -/
structure Popover where
  title : String
  description : String
  side : Side
  align : Align
deriving Repr, DecidableEq

/-- One step handed to the driver.js tour driver: target element plus its
popover configuration. -/
structure DriverStep where
  element : Elem
  popover : Popover
deriving Repr, DecidableEq

/-- Configuration of a single highlight overlay (the argument of
driver.js `highlight`). -/
structure OverlayConfig where
  element : Elem
  title : Option String
  description : Option String
deriving Repr, DecidableEq

/-- One call made on the highlight driver instance, for the call trace. -/
inductive DriverCall where
  | destroy : DriverCall
  | highlightCall (cfg : OverlayConfig) : DriverCall
deriving Repr, DecidableEq

/-- State of the driver.js highlight driver instance: the calls made on it
so far and the overlay it currently shows (`none` after a destroy). -/
structure DriverInstance where
  trace : List DriverCall
  overlay : Option OverlayConfig
deriving Repr, DecidableEq

/-- The driver.js `destroy()` operation: clears the overlay; idempotent. -/
def DriverInstance.destroyCall (d : DriverInstance) : DriverInstance :=
  { trace := d.trace ++ [DriverCall.destroy], overlay := none }

/-- The driver.js `highlight(cfg)` operation: shows `cfg`. -/
def DriverInstance.highlightOp (d : DriverInstance) (cfg : OverlayConfig) :
    DriverInstance :=
  { trace := d.trace ++ [DriverCall.highlightCall cfg], overlay := some cfg }

/-- A freshly constructed highlight driver instance. -/
def DriverInstance.fresh : DriverInstance :=
  { trace := [], overlay := none }

/-- State of the driver.js tour driver instance: its configured steps,
whether `drive()` has been called, and whether it has been destroyed. -/
structure TourDriver where
  steps : List DriverStep
  driving : Bool
  destroyed : Bool
deriving Repr, DecidableEq

/-- The tour driver's `destroy()` operation. -/
def TourDriver.destroyCall (t : TourDriver) : TourDriver :=
  { t with driving := false, destroyed := true }

/-- Structured model of the console.error / console.warn calls the registry
makes. -/
inductive LogEntry where
  | errorComponentNotFound (id : String) : LogEntry
  | warnStepNotFound (id : String) : LogEntry
  | errorNoValidSteps : LogEntry
deriving Repr, DecidableEq

/-- The detail payload of the custom event dispatched by `execute`. -/
structure ExecuteDetail where
  id : String
  actionId : String
  params : List (String × Json)
deriving Repr

/-- A dispatched custom event: target element, event name, detail. -/
structure EventRecord where
  target : Elem
  name : String
  detail : ExecuteDetail
deriving Repr

/-- Insertion-ordered association-list map: lookup (JS `Map.get`). -/
def mapGet {κ α : Type} [BEq κ] (m : List (κ × α)) (k : κ) : Option α :=
  match m.find? (fun p => p.1 == k) with
  | some p => some p.2
  | none => none

/-- Insertion-ordered association-list map: JS `Map.set` (updates the value
in place when the key is present, else appends). -/
def mapSet {κ α : Type} [BEq κ] (m : List (κ × α)) (k : κ) (v : α) :
    List (κ × α) :=
  if m.any (fun p => p.1 == k) then
    m.map (fun p => if p.1 == k then (k, v) else p)
  else
    m ++ [(k, v)]

/-- JS `Map.delete`: removes the binding, with the Bool `delete` returns. -/
def mapDelete {κ α : Type} [BEq κ] (m : List (κ × α)) (k : κ) :
    List (κ × α) × Bool :=
  (m.filter (fun p => !(p.1 == k)), m.any (fun p => p.1 == k))

/-- ASCII model of `String.prototype.toLowerCase`. -/
def lowerStr (s : String) : String :=
  String.mk (s.data.map Char.toLower)

/-- Occurrence of `needle` as a contiguous sublist of `hay`. -/
def occursIn (needle hay : List Char) : Bool :=
  match hay with
  | [] => needle.isEmpty
  | _ :: t => needle.isPrefixOf hay || occursIn needle t

/-- Model of JS `s.includes(sub)`: substring occurrence. -/
def jsIncludes (s sub : String) : Bool :=
  occursIn sub.data s.data

/-- The whole mutable world the registry code touches: the component map,
the DOM attribute store, the two driver instances, the tour-active flag,
window availability, the clock and pending highlight-teardown timers, the
console log and the dispatched events. -/
structure RegistryState where
  components : List (String × ComponentEntry)
  dom : List (Nat × List (String × String))
  highlightDriverInstance : Option DriverInstance
  tourDriverInstance : Option TourDriver
  activeTour : Bool
  windowAvailable : Bool
  now : Int
  timers : List Int
  log : List LogEntry
  events : List EventRecord
  driversCreated : Nat
deriving Repr

/-- DOM `element.setAttribute` on the attribute store. -/
def domSetAttr (dom : List (Nat × List (String × String))) (ref : Nat)
    (k v : String) : List (Nat × List (String × String)) :=
  if dom.any (fun p => p.1 == ref) then
    dom.map (fun p => if p.1 == ref then (p.1, mapSet p.2 k v) else p)
  else
    dom ++ [(ref, mapSet [] k v)]

/-- DOM `element.getAttribute` on the attribute store (`none` = null). -/
def domGetAttr (dom : List (Nat × List (String × String))) (ref : Nat)
    (k : String) : Option String :=
  match mapGet dom ref with
  | some attrs => mapGet attrs k
  | none => none

/-- Registry.register (src/core/registry.ts:59-93): inserts or overwrites
the entry, stamps the element with the data-hlas markers (description only
when truthy, actions only when non-empty), and returns the id. -/
def register (s : RegistryState) (id : String) (element : Elem)
    (name : String) (actions : List ActionSchema)
    (description : Option String) : String × RegistryState :=
  let componentId := id
  let entry : ComponentEntry :=
    { id := componentId, element := element, actions := actions,
      name := name, description := description }
  let comps := mapSet s.components componentId entry
  let dom1 := domSetAttr s.dom element.ref "data-hlas-id" componentId
  let dom2 := domSetAttr dom1 element.ref "data-hlas-name" name
  let dom3 :=
    match description with
    | some d => if d == "" then dom2
                else domSetAttr dom2 element.ref "data-hlas-description" d
    | none => dom2
  let dom4 :=
    if actions.length > 0 then
      domSetAttr dom3 element.ref "data-hlas-actions"
        (String.intercalate "," (actions.map (fun a => a.id)))
    else dom3
  (componentId, { s with components := comps, dom := dom4 })

/-- Registry.unregister (src/core/registry.ts:98-100). -/
def unregister (s : RegistryState) (id : String) : Bool × RegistryState :=
  let r := mapDelete s.components id
  (r.2, { s with components := r.1 })

/-- The match condition of Registry.find's loop (src/core/registry.ts:109-113):
name matches, or the description is truthy and matches. -/
def findCond (lowerQuery : String) (component : ComponentEntry) : Bool :=
  jsIncludes (lowerStr component.name) lowerQuery ||
    (match component.description with
     | some d => !(d == "") && jsIncludes (lowerStr d) lowerQuery
     | none => false)

/-- Registry.find (src/core/registry.ts:104-119): push-loop over the map
values in insertion order. -/
def find (s : RegistryState) (query : String) : List ComponentEntry :=
  let lowerQuery := lowerStr query
  (s.components.map Prod.snd).foldl
    (fun results component =>
      if findCond lowerQuery component then results ++ [component]
      else results) []

/-- Registry.execute (src/core/registry.ts:124-144): logs and returns false
on an unknown id; otherwise dispatches one custom event on the component's
element with detail (id, actionId, params or empty object) and returns
true. -/
def execute (s : RegistryState) (id : String) (actionId : String)
    (params : Option (List (String × Json))) : Bool × RegistryState :=
  match mapGet s.components id with
  | none =>
      (false, { s with log := s.log ++ [LogEntry.errorComponentNotFound id] })
  | some component =>
      let event : EventRecord :=
        { target := component.element, name := "hlas:execute",
          detail := { id := id, actionId := actionId,
                      params := params.getD [] } }
      (true, { s with events := s.events ++ [event] })

/-- Double-quote character (written by code to avoid quoting issues). -/
def dquote : Char := Char.ofNat 34

/-- Backslash character. -/
def bslash : Char := Char.ofNat 92

/-- Left curly brace character. -/
def lbrace : Char := Char.ofNat 123

/-- Right curly brace character. -/
def rbrace : Char := Char.ofNat 125

/-- JSON whitespace skipping (space, tab, line feed, carriage return). -/
def skipWs : List Char → List Char
  | c :: t =>
      if c == ' ' || c == Char.ofNat 9 || c == Char.ofNat 10 || c == Char.ofNat 13
      then skipWs t else c :: t
  | [] => []

/-- Value of a hexadecimal digit, if any. -/
def hexVal (c : Char) : Option Nat :=
  if c.val ≥ 48 && c.val ≤ 57 then some (c.val.toNat - 48)
  else if c.val ≥ 97 && c.val ≤ 102 then some (c.val.toNat - 87)
  else if c.val ≥ 65 && c.val ≤ 70 then some (c.val.toNat - 55)
  else none

/-- Single-character JSON string escapes. -/
def escMap (c : Char) : Option Char :=
  if c == dquote then some dquote
  else if c == bslash then some bslash
  else if c == '/' then some '/'
  else if c == 'b' then some (Char.ofNat 8)
  else if c == 'f' then some (Char.ofNat 12)
  else if c == 'n' then some (Char.ofNat 10)
  else if c == 'r' then some (Char.ofNat 13)
  else if c == 't' then some (Char.ofNat 9)
  else none

/-- Decimal digit test. -/
def isDigit (c : Char) : Bool := c.val ≥ 48 && c.val ≤ 57

/-- Splits a leading run of decimal digits off a character list. -/
def takeDigits : List Char → List Char × List Char
  | c :: t =>
      if isDigit c then
        let r := takeDigits t
        (c :: r.1, r.2)
      else ([], c :: t)
  | [] => ([], [])

/-- Consumes a literal and returns the remainder, or fails. -/
def expectLit (lit cs : List Char) : Option (List Char) :=
  if lit.isPrefixOf cs then some (cs.drop lit.length) else none

/-- Body of a JSON string after the opening quote: returns the decoded
characters and the remainder after the closing quote. -/
def parseStrChars : Nat → List Char → Option (List Char × List Char)
  | 0, _ => none
  | _, [] => none
  | fuel + 1, c :: rest =>
      if c == dquote then some ([], rest)
      else if c == bslash then
        match rest with
        | [] => none
        | e :: rest2 =>
            if e == 'u' then
              match rest2 with
              | a :: b :: c2 :: d :: rest3 =>
                  match hexVal a, hexVal b, hexVal c2, hexVal d with
                  | some ha, some hb, some hc, some hd =>
                      let code := ((ha * 16 + hb) * 16 + hc) * 16 + hd
                      match parseStrChars fuel rest3 with
                      | some (cs, rem) => some (Char.ofNat code :: cs, rem)
                      | none => none
                  | _, _, _, _ => none
              | _ => none
            else
              match escMap e with
              | some ch =>
                  match parseStrChars fuel rest2 with
                  | some (cs, rem) => some (ch :: cs, rem)
                  | none => none
              | none => none
      else if c.val < 32 then none
      else
        match parseStrChars fuel rest with
        | some (cs, rem) => some (c :: cs, rem)
        | none => none

/-- JSON number lexeme: optional minus, integer part without leading zeros,
optional fraction, optional exponent.  Returns the lexeme and remainder. -/
def parseNumber (cs : List Char) : Option (List Char × List Char) :=
  let signed : List Char × List Char :=
    match cs with
    | '-' :: t => (['-'], t)
    | _ => ([], cs)
  match signed.2 with
  | c :: t =>
      if c == '0' then parseNumberFrac (signed.1 ++ ['0']) t
      else if isDigit c then
        let r := takeDigits t
        parseNumberFrac (signed.1 ++ (c :: r.1)) r.2
      else none
  | [] => none
where
  /-- Fraction and exponent parts, given the lexeme so far. -/
  parseNumberFrac (acc : List Char) (cs : List Char) :
      Option (List Char × List Char) :=
    let afterFrac : Option (List Char × List Char) :=
      match cs with
      | '.' :: t =>
          match takeDigits t with
          | ([], _) => none
          | (ds, rest) => some (acc ++ '.' :: ds, rest)
      | _ => some (acc, cs)
    match afterFrac with
    | none => none
    | some (acc2, cs2) =>
        match cs2 with
        | e :: t =>
            if e == 'e' || e == 'E' then
              let signd : List Char × List Char :=
                match t with
                | '+' :: t2 => (['+'], t2)
                | '-' :: t2 => (['-'], t2)
                | _ => ([], t)
              match takeDigits signd.2 with
              | ([], _) => none
              | (ds, rest) => some (acc2 ++ e :: (signd.1 ++ ds), rest)
            else some (acc2, cs2)
        | [] => some (acc2, cs2)

mutual

/-- Recursive-descent JSON value parser (model of ECMAScript JSON.parse),
fuelled by the remaining recursion budget. -/
def parseVal : Nat → List Char → Option (Json × List Char)
  | 0, _ => none
  | fuel + 1, cs =>
      match skipWs cs with
      | [] => none
      | c :: rest =>
          if c == 'n' then
            match expectLit ['u', 'l', 'l'] rest with
            | some r => some (Json.null, r)
            | none => none
          else if c == 't' then
            match expectLit ['r', 'u', 'e'] rest with
            | some r => some (Json.bool true, r)
            | none => none
          else if c == 'f' then
            match expectLit ['a', 'l', 's', 'e'] rest with
            | some r => some (Json.bool false, r)
            | none => none
          else if c == dquote then
            match parseStrChars (rest.length + 1) rest with
            | some (cs2, rem) => some (Json.str (String.mk cs2), rem)
            | none => none
          else if c == '[' then
            match parseItems fuel true rest with
            | some (vs, rem) => some (Json.arr vs, rem)
            | none => none
          else if c == lbrace then
            match parseFields fuel true rest with
            | some (fs, rem) => some (Json.obj fs, rem)
            | none => none
          else if c == '-' || isDigit c then
            match parseNumber (c :: rest) with
            | some (lex, rem) => some (Json.num (String.mk lex), rem)
            | none => none
          else none

/-- Array elements after the opening bracket; `first` allows an immediately
closing bracket (empty array), later calls sit right after a comma. -/
def parseItems : Nat → Bool → List Char → Option (List Json × List Char)
  | 0, _, _ => none
  | fuel + 1, first, cs =>
      match first, skipWs cs with
      | true, ']' :: rest => some ([], rest)
      | _, cs1 =>
          match parseVal fuel cs1 with
          | none => none
          | some (v, rest) =>
              match skipWs rest with
              | ']' :: rest2 => some ([v], rest2)
              | ',' :: rest2 =>
                  match parseItems fuel false rest2 with
                  | some (vs, rem) => some (v :: vs, rem)
                  | none => none
              | _ => none

/-- Object members after the opening brace; `first` allows an immediately
closing brace (empty object). -/
def parseFields : Nat → Bool → List Char →
    Option (List (String × Json) × List Char)
  | 0, _, _ => none
  | fuel + 1, first, cs =>
      match skipWs cs with
      | c :: rest =>
          if first && c == rbrace then some ([], rest)
          else if c == dquote then
            match parseStrChars (rest.length + 1) rest with
            | none => none
            | some (kcs, rest2) =>
                match skipWs rest2 with
                | ':' :: rest3 =>
                    match parseVal fuel rest3 with
                    | none => none
                    | some (v, rest4) =>
                        match skipWs rest4 with
                        | c2 :: rest5 =>
                            if c2 == rbrace then
                              some ([(String.mk kcs, v)], rest5)
                            else if c2 == ',' then
                              match parseFields fuel false rest5 with
                              | some (fs, rem) =>
                                  some ((String.mk kcs, v) :: fs, rem)
                              | none => none
                            else none
                        | [] => none
                | _ => none
          else none
      | [] => none

end

/-- Model of `JSON.parse(s)`: one JSON value surrounded by whitespace only;
`none` models the thrown SyntaxError. -/
def jsonParse (s : String) : Option Json :=
  match parseVal (s.data.length + 2) s.data with
  | some (v, rest) => if (skipWs rest).isEmpty then some v else none
  | none => none

/-- The loop body of Registry.readScreen (src/core/registry.ts:312-336) for
one component: `visible` is hardcoded true; `content` comes from the
data-hlas-content attribute when truthy, JSON-parsed with raw-string
fallback on parse failure. -/
def screenOf (dom : List (Nat × List (String × String)))
    (component : ComponentEntry) : ScreenComponent :=
  let contentAttr := domGetAttr dom component.element.ref "data-hlas-content"
  let content : Option (Json ⊕ String) :=
    match contentAttr with
    | none => none
    | some a =>
        if a == "" then none
        else
          match jsonParse a with
          | some j => some (Sum.inl j)
          | none => some (Sum.inr a)
  { id := component.id, name := component.name,
    description := component.description, visible := true,
    actions := component.actions, content := content }

/-- Registry.readScreen (src/core/registry.ts:309-340): push-loop over all
entries in insertion order, no visibility filtering. -/
def readScreen (s : RegistryState) : List ScreenComponent :=
  (s.components.map Prod.snd).foldl
    (fun results component => results ++ [screenOf s.dom component]) []

/-- JS `a || b` for an optional string `a`: the empty string is falsy, so
it falls through to `b` (unlike `a ?? b`). -/
def jsOrStr (a : Option String) (b : String) : String :=
  match a with
  | some s => if s == "" then b else s
  | none => b

/-- The driver step built by startTour for one resolving tour step
(src/core/registry.ts:197-205); all four popover fields use JS `||`
defaulting. -/
def mkDriverStep (step : TourStep) (component : ComponentEntry) : DriverStep :=
  { element := component.element,
    popover :=
      { title := jsOrStr step.title component.name,
        description := jsOrStr step.description (jsOrStr component.description ""),
        side := step.position.getD Side.bottom,
        align := step.align.getD Align.center } }

/-- The step-resolution loop of startTour (src/core/registry.ts:188-206):
accumulates driver steps for resolving steps and a warning per skipped
step. -/
def resolveTourSteps (s : RegistryState) (steps : List TourStep) :
    List DriverStep × List LogEntry :=
  steps.foldl
    (fun (acc : List DriverStep × List LogEntry) step =>
      match mapGet s.components step.id with
      | some component =>
          if component.element.isHTML then
            (acc.1 ++ [mkDriverStep step component], acc.2)
          else (acc.1, acc.2 ++ [LogEntry.warnStepNotFound step.id])
      | none => (acc.1, acc.2 ++ [LogEntry.warnStepNotFound step.id]))
    ([], [])

/-- Registry.startTour (src/core/registry.ts:177-242): destroys a previous
tour driver, resolves the steps (skipping unknown ids with a warning),
fails with an error when nothing resolves, otherwise constructs a new tour
driver and, when autoStart, begins driving and marks the tour active.
Nothing in the model throws, so the catch branch of the source is dead
here. -/
def startTour (s : RegistryState) (steps : List TourStep) (autoStart : Bool) :
    Bool × RegistryState :=
  let s1 :=
    match s.tourDriverInstance with
    | some td =>
        { s with tourDriverInstance := some td.destroyCall, activeTour := false }
    | none => s
  let acc := resolveTourSteps s1 steps
  let driverSteps := acc.1
  let s2 := { s1 with log := s1.log ++ acc.2 }
  if driverSteps.isEmpty then
    (false, { s2 with log := s2.log ++ [LogEntry.errorNoValidSteps] })
  else
    let td : TourDriver :=
      { steps := driverSteps, driving := false, destroyed := false }
    let s3 := { s2 with tourDriverInstance := some td,
                        driversCreated := s2.driversCreated + 1 }
    if autoStart then
      (true, { s3 with tourDriverInstance := some { td with driving := true },
                       activeTour := true })
    else (true, s3)

/-- Registry.highlight (src/core/registry.ts:251-304): unknown id logs and
returns false; a missing highlight driver is created when window is
available; with a driver and an HTML element the current overlay is
destroyed, the new one shown, and a teardown timer scheduled only when
duration is positive; otherwise returns false (without logging). -/
def highlight (s : RegistryState) (id : String) (duration : Int)
    (title description : Option String) : Bool × RegistryState :=
  match mapGet s.components id with
  | none =>
      (false, { s with log := s.log ++ [LogEntry.errorComponentNotFound id] })
  | some component =>
      let s1 :=
        if s.highlightDriverInstance.isNone && s.windowAvailable then
          { s with highlightDriverInstance := some DriverInstance.fresh,
                   driversCreated := s.driversCreated + 1 }
        else s
      match s1.highlightDriverInstance with
      | some d =>
          if component.element.isHTML then
            let d2 := (d.destroyCall).highlightOp
              { element := component.element, title := title,
                description := description }
            let s2 := { s1 with highlightDriverInstance := some d2 }
            let s3 :=
              if duration > 0 then
                { s2 with timers := s2.timers ++ [s2.now + duration] }
              else s2
            (true, s3)
          else (false, s1)
      | none => (false, s1)

/-- Advances the simulated clock by `delta` milliseconds and runs every due
`setTimeout` callback; each pending callback is
`highlightDriverInstance?.destroy()` (src/core/registry.ts:295-297). -/
def advanceTime (s : RegistryState) (delta : Nat) : RegistryState :=
  let now2 := s.now + (delta : Int)
  let due := s.timers.filter (fun t => decide (t ≤ now2))
  let remaining := s.timers.filter (fun t => decide (now2 < t))
  let inst2 :=
    due.foldl (fun inst _ => inst.map DriverInstance.destroyCall)
      s.highlightDriverInstance
  { s with now := now2, timers := remaining, highlightDriverInstance := inst2 }

/-- Registry state as constructed (src/core/registry.ts:27-49) before any
registration: empty map, no tour driver, tour inactive, nothing scheduled.
The highlight driver is created by a delayed `setTimeout` only when window
exists; `highlightDriverInstance` is therefore still `none` here. -/
def initialState (windowAvailable : Bool) : RegistryState :=
  { components := [], dom := [], highlightDriverInstance := none,
    tourDriverInstance := none, activeTour := false,
    windowAvailable := windowAvailable, now := 0, timers := [], log := [],
    events := [], driversCreated := 0 }

/-- Fresh browser-side registry, before the constructor's zero-delay
timeout has run. -/
def emptyState : RegistryState := initialState true

/-- Browser-side registry after the constructor's zero-delay timeout has
created the highlight driver instance. -/
def driverReadyState : RegistryState :=
  { emptyState with highlightDriverInstance := some DriverInstance.fresh,
                    driversCreated := 1 }

/-- Registry in an environment without `window` (no driver can ever be
created). -/
def noWindowState : RegistryState := initialState false

/-- Spec-side match predicate for `find`: the query occurs case-insensitively
in the name or in the description (no truthiness guard on the
description). -/
def specNameOrDescContains (query : String) (c : ComponentEntry) : Bool :=
  jsIncludes (lowerStr c.name) (lowerStr query) ||
    (match c.description with
     | some d => jsIncludes (lowerStr d) (lowerStr query)
     | none => false)

/-- Spec-side resolution of one tour step: the driver step it contributes,
if its id resolves to a registered component with an HTML element. -/
def resolveStep (s : RegistryState) (st : TourStep) : Option DriverStep :=
  match mapGet s.components st.id with
  | some c => if c.element.isHTML then some (mkDriverStep st c) else none
  | none => none

/-- Spec-side warning contributed by one tour step: present exactly when the
step is skipped. -/
def stepWarning (s : RegistryState) (st : TourStep) : Option LogEntry :=
  match mapGet s.components st.id with
  | some c =>
      if c.element.isHTML then none else some (LogEntry.warnStepNotFound st.id)
  | none => some (LogEntry.warnStepNotFound st.id)

/-! ### Concrete sample data (used by witnesses and counterexamples). -/

/-- Sample HTML element 0. -/
def elA : Elem := { ref := 0, isHTML := true }

/-- Sample HTML element 1. -/
def elB : Elem := { ref := 1, isHTML := true }

/-- Sample action schema. -/
def actSave : ActionSchema :=
  { id := "save", name := "Save", description := none, parameters := none }

/-- State with one component (id a, name Alpha) registered in a browser
registry whose highlight driver exists. -/
def stReady1 : RegistryState :=
  (register driverReadyState "a" elA "Alpha" [] none).2

/-- State with two components (a / Alpha on elA, b / Beta on elB) and a
live highlight driver. -/
def stReady2 : RegistryState :=
  (register stReady1 "b" elB "Beta" [] none).2

/-- State with one registered component but no window and no driver. -/
def stNoWin : RegistryState :=
  (register noWindowState "a" elA "Alpha" [] none).2

/-- A tour step whose id matches nothing. -/
def stepMissing : TourStep :=
  { id := "missing", title := none, description := none, position := none,
    align := none }

/-- Component (name N, description D) for the tour-popover claims. -/
def c5State : RegistryState :=
  (register emptyState "a" elA "N" [] (some "D")).2

/-- Tour step for component a carrying explicit empty-string title and
description. -/
def c5StepEmptyStrings : TourStep :=
  { id := "a", title := some "", description := some "", position := none,
    align := none }

/-- Tour step for component a with no overrides at all. -/
def c5StepBare : TourStep :=
  { id := "a", title := none, description := none, position := none,
    align := none }

/-- State with two components whose elements carry content attributes: a
JSON object marker on elA and a non-JSON raw string on elB. -/
def c8State : RegistryState :=
  let s1 := (register emptyState "j" elA "JsonComp" [] none).2
  let s2 := (register s1 "r" elB "RawComp" [] none).2
  { s2 with
    dom :=
      domSetAttr
        (domSetAttr s2.dom elA.ref "data-hlas-content"
          "\x7b\x22key\x22:\x22value\x22\x7d")
        elB.ref "data-hlas-content" "Simple text content" }

/-! ### Generic helper lemmas about the list and map operations. -/

theorem foldl_push_filter {α : Type} (p : α → Bool) (l acc : List α) :
    l.foldl (fun r c => if p c then r ++ [c] else r) acc = acc ++ l.filter p := by
  induction l generalizing acc with
  | nil => simp
  | cons a t ih => cases h : p a <;> simp [h, ih, List.filter_cons]

theorem foldl_push_map {α β : Type} (f : α → β) (l : List α) (acc : List β) :
    l.foldl (fun r c => r ++ [f c]) acc = acc ++ l.map f := by
  induction l generalizing acc with
  | nil => simp
  | cons a t ih => simp [ih]

theorem mapGet_nil {κ α : Type} [BEq κ] (k : κ) :
    mapGet ([] : List (κ × α)) k = none := rfl

theorem mapGet_cons {κ α : Type} [BEq κ] (p : κ × α) (t : List (κ × α))
    (k : κ) :
    mapGet (p :: t) k = if p.1 == k then some p.2 else mapGet t k := by
  rcases Bool.eq_false_or_eq_true (p.1 == k) with h | h <;>
    simp [mapGet, List.find?, h]

theorem mapGet_overwrite {κ α : Type} [BEq κ] [LawfulBEq κ]
    (m : List (κ × α)) (k : κ) (v : α) :
    mapGet (m.map fun p => if p.1 == k then (k, v) else p) k =
      if m.any (fun p => p.1 == k) then some v else none := by
  induction m with
  | nil => rfl
  | cons p t ih =>
      simp only [List.map_cons, List.any_cons]
      rcases Bool.eq_false_or_eq_true (p.1 == k) with h | h <;>
        simp only [h, Bool.false_or, Bool.true_or] <;>
        simp [h, mapGet_cons, ih]

theorem mapGet_append_single {κ α : Type} [BEq κ] [LawfulBEq κ]
    (m : List (κ × α)) (k : κ) (v : α)
    (h : m.any (fun p => p.1 == k) = false) :
    mapGet (m ++ [(k, v)]) k = some v := by
  induction m with
  | nil => simp [mapGet_cons]
  | cons p t ih =>
      simp only [List.any_cons, Bool.or_eq_false_iff] at h
      simp [mapGet_cons, h.1, ih h.2]

theorem mapGet_mapSet_self {κ α : Type} [BEq κ] [LawfulBEq κ]
    (m : List (κ × α)) (k : κ) (v : α) :
    mapGet (mapSet m k v) k = some v := by
  unfold mapSet
  cases hany : m.any (fun p => p.1 == k) with
  | true => simp [hany, mapGet_overwrite]
  | false => simp [hany, mapGet_append_single m k v hany]

theorem mapGet_append_single_ne {κ α : Type} [BEq κ] [LawfulBEq κ]
    (m : List (κ × α)) (k k' : κ) (v : α) (h : k' ≠ k) :
    mapGet (m ++ [(k, v)]) k' = mapGet m k' := by
  induction m with
  | nil =>
      have : (k == k') = false := by
        simp only [beq_eq_false_iff_ne]; exact fun e => h e.symm
      simp [mapGet_cons, this, mapGet]
  | cons p t ih => simp [mapGet_cons, ih]

theorem mapGet_overwrite_ne {κ α : Type} [BEq κ] [LawfulBEq κ]
    (m : List (κ × α)) (k k' : κ) (v : α) (h : k' ≠ k) :
    mapGet (m.map fun p => if p.1 == k then (k, v) else p) k' = mapGet m k' := by
  induction m with
  | nil => rfl
  | cons p t ih =>
      cases hp : p.1 == k with
      | true =>
          have hp1 : p.1 = k := by exact eq_of_beq hp
          have h1 : (k == k') = false := by
            simp only [beq_eq_false_iff_ne]; exact fun e => h e.symm
          have h2 : (p.1 == k') = false := by rw [hp1]; exact h1
          simp [hp, mapGet_cons, h1, h2, ih]
      | false => simp [hp, mapGet_cons, ih]

theorem mapGet_mapSet_ne {κ α : Type} [BEq κ] [LawfulBEq κ]
    (m : List (κ × α)) (k k' : κ) (v : α) (h : k' ≠ k) :
    mapGet (mapSet m k v) k' = mapGet m k' := by
  unfold mapSet
  cases hany : m.any (fun p => p.1 == k) with
  | true => simp [hany, mapGet_overwrite_ne m k k' v h]
  | false => simp [hany, mapGet_append_single_ne m k k' v h]

theorem mapGet_eq_none_of_any_false {κ α : Type} [BEq κ]
    (m : List (κ × α)) (k : κ) (h : m.any (fun p => p.1 == k) = false) :
    mapGet m k = none := by
  induction m with
  | nil => rfl
  | cons p t ih =>
      simp only [List.any_cons, Bool.or_eq_false_iff] at h
      simp [mapGet_cons, h.1, ih h.2]

theorem mapGet_isSome_of_any {κ α : Type} [BEq κ]
    (m : List (κ × α)) (k : κ) (h : m.any (fun p => p.1 == k) = true) :
    ∃ a, mapGet m k = some a := by
  induction m with
  | nil => simp at h
  | cons p t ih =>
      rcases Bool.eq_false_or_eq_true (p.1 == k) with hp | hp
      · exact ⟨p.2, by simp [mapGet_cons, hp]⟩
      · simp only [List.any_cons, hp, Bool.false_or] at h
        obtain ⟨a, ha⟩ := ih h
        exact ⟨a, by simp [mapGet_cons, hp, ha]⟩

theorem mapGet_mapUpdate {κ α : Type} [BEq κ] [LawfulBEq κ]
    (m : List (κ × α)) (k : κ) (f : α → α) :
    mapGet (m.map fun p => if p.1 == k then (p.1, f p.2) else p) k =
      (mapGet m k).map f := by
  induction m with
  | nil => rfl
  | cons p t ih =>
      simp only [List.map_cons]
      rcases Bool.eq_false_or_eq_true (p.1 == k) with h | h <;>
        simp only [h, Bool.false_or, Bool.true_or] <;>
        simp [h, mapGet_cons, ih]

theorem mapGet_mapUpdate_ne {κ α : Type} [BEq κ] [LawfulBEq κ]
    (m : List (κ × α)) (k k' : κ) (f : α → α) (h : k' ≠ k) :
    mapGet (m.map fun p => if p.1 == k then (p.1, f p.2) else p) k' =
      mapGet m k' := by
  induction m with
  | nil => rfl
  | cons p t ih =>
      simp only [List.map_cons]
      rcases Bool.eq_false_or_eq_true (p.1 == k) with hp | hp
      · have hp1 : p.1 = k := eq_of_beq hp
        have h2 : (p.1 == k') = false := by
          simp only [beq_eq_false_iff_ne, hp1]
          exact fun e => h e.symm
        simp [hp, mapGet_cons, h2, ih]
      · simp [hp, mapGet_cons, ih]

theorem mapGet_domSetAttr_self (dom : List (Nat × List (String × String)))
    (ref : Nat) (k v : String) :
    mapGet (domSetAttr dom ref k v) ref =
      some (mapSet ((mapGet dom ref).getD []) k v) := by
  unfold domSetAttr
  cases hany : dom.any (fun p => p.1 == ref) with
  | true =>
      obtain ⟨attrs, hattrs⟩ := mapGet_isSome_of_any dom ref hany
      rw [if_pos (by simp [hany])]
      rw [mapGet_mapUpdate dom ref (fun attrs => mapSet attrs k v)]
      simp [hattrs]
  | false =>
      rw [if_neg (by simp [hany])]
      rw [mapGet_append_single dom ref _ hany]
      rw [mapGet_eq_none_of_any_false dom ref hany]
      rfl

theorem mapGet_domSetAttr_ne (dom : List (Nat × List (String × String)))
    (ref ref' : Nat) (k v : String) (h : ref' ≠ ref) :
    mapGet (domSetAttr dom ref k v) ref' = mapGet dom ref' := by
  unfold domSetAttr
  cases hany : dom.any (fun p => p.1 == ref) with
  | true =>
      rw [if_pos (by simp [hany])]
      exact mapGet_mapUpdate_ne dom ref ref' (fun attrs => mapSet attrs k v) h
  | false =>
      rw [if_neg (by simp [hany])]
      exact mapGet_append_single_ne dom ref ref' _ h

theorem domGetAttr_setAttr_self (dom : List (Nat × List (String × String)))
    (ref : Nat) (k v : String) :
    domGetAttr (domSetAttr dom ref k v) ref k = some v := by
  unfold domGetAttr
  rw [mapGet_domSetAttr_self]
  exact mapGet_mapSet_self _ k v

theorem domGetAttr_setAttr_ne_key (dom : List (Nat × List (String × String)))
    (ref : Nat) (k k' v : String) (h : k' ≠ k) :
    domGetAttr (domSetAttr dom ref k v) ref k' = domGetAttr dom ref k' := by
  unfold domGetAttr
  simp only [mapGet_domSetAttr_self]
  rw [mapGet_mapSet_ne _ k k' v h]
  cases hm : mapGet dom ref <;> simp [hm, mapGet_nil]

theorem domGetAttr_setAttr_ne_ref (dom : List (Nat × List (String × String)))
    (ref ref' : Nat) (k k' v : String) (h : ref' ≠ ref) :
    domGetAttr (domSetAttr dom ref k v) ref' k' = domGetAttr dom ref' k' := by
  unfold domGetAttr
  rw [mapGet_domSetAttr_ne dom ref ref' k v h]

theorem countP_overwrite {κ α : Type} [BEq κ] [LawfulBEq κ]
    (m : List (κ × α)) (k : κ) (v : α) :
    (m.map fun p => if p.1 == k then (k, v) else p).countP
        (fun p => p.1 == k) =
      m.countP (fun p => p.1 == k) := by
  induction m with
  | nil => rfl
  | cons p t ih =>
      simp only [List.map_cons]
      rcases Bool.eq_false_or_eq_true (p.1 == k) with h | h <;>
        simp only [h, Bool.false_or, Bool.true_or] <;>
        simp [h, List.countP_cons, ih]

theorem countP_mapSet {κ α : Type} [BEq κ] [LawfulBEq κ]
    (m : List (κ × α)) (k : κ) (v : α)
    (h : m.countP (fun p => p.1 == k) ≤ 1) :
    (mapSet m k v).countP (fun p => p.1 == k) = 1 := by
  unfold mapSet
  cases hany : m.any (fun p => p.1 == k) with
  | true =>
      have h1 : 0 < m.countP (fun p => p.1 == k) := by
        rw [List.countP_pos_iff]
        obtain ⟨x, hx, hpx⟩ := List.any_eq_true.mp hany
        exact ⟨x, hx, hpx⟩
      rw [if_pos (by simp [hany])]
      rw [countP_overwrite]
      omega
  | false =>
      have h0 : m.countP (fun p => p.1 == k) = 0 := by
        rw [List.countP_eq_zero]
        intro a ha
        have := List.any_eq_false.mp hany
        exact fun hc => (this a ha) hc
      rw [if_neg (by simp [hany])]
      simp [List.countP_append, h0, List.countP_cons]

/-! ### Lemmas about the substring and lowercase helpers. -/

theorem occursIn_nil_left (hay : List Char) : occursIn [] hay = true := by
  cases hay <;> rfl

theorem jsIncludes_empty_sub (s : String) : jsIncludes s "" = true :=
  occursIn_nil_left s.data

theorem lowerStr_data (s : String) :
    (lowerStr s).data = s.data.map Char.toLower := rfl

theorem findCond_eq_spec (q : String) (c : ComponentEntry) :
    findCond (lowerStr q) c = specNameOrDescContains q c := by
  unfold findCond specNameOrDescContains
  cases c.description with
  | none => rfl
  | some d =>
      by_cases hde : d = ""
      · subst hde
        cases hq : q.data with
        | nil =>
            have hA : jsIncludes (lowerStr c.name) (lowerStr q) = true := by
              unfold jsIncludes
              rw [lowerStr_data, hq]
              exact occursIn_nil_left _
            have hB : jsIncludes (lowerStr "") (lowerStr q) = true := by
              unfold jsIncludes
              rw [lowerStr_data, hq]
              rfl
            simp [hA, hB]
        | cons ch t =>
            have hB : jsIncludes (lowerStr "") (lowerStr q) = false := by
              unfold jsIncludes
              rw [lowerStr_data, hq]
              rfl
            simp [hB]
      · have : (d == "") = false := by simp [hde]
        simp [this]

theorem resolveTourSteps_go (s : RegistryState) (steps : List TourStep)
    (acc : List DriverStep × List LogEntry) :
    steps.foldl
      (fun (acc : List DriverStep × List LogEntry) step =>
        match mapGet s.components step.id with
        | some component =>
            if component.element.isHTML then
              (acc.1 ++ [mkDriverStep step component], acc.2)
            else (acc.1, acc.2 ++ [LogEntry.warnStepNotFound step.id])
        | none => (acc.1, acc.2 ++ [LogEntry.warnStepNotFound step.id])) acc =
      (acc.1 ++ steps.filterMap (resolveStep s),
       acc.2 ++ steps.filterMap (stepWarning s)) := by
  induction steps generalizing acc with
  | nil => simp
  | cons st t ih =>
      simp only [List.foldl_cons, List.filterMap_cons]
      cases hm : mapGet s.components st.id with
      | none => simp [hm, ih, resolveStep, stepWarning]
      | some component =>
          rcases Bool.eq_false_or_eq_true component.element.isHTML with hh | hh <;>
            simp [hm, hh, ih, resolveStep, stepWarning]

theorem resolveTourSteps_eq (s : RegistryState) (steps : List TourStep) :
    resolveTourSteps s steps =
      (steps.filterMap (resolveStep s), steps.filterMap (stepWarning s)) := by
  unfold resolveTourSteps
  rw [resolveTourSteps_go]
  simp

theorem screenOf_visible (dom : List (Nat × List (String × String)))
    (c : ComponentEntry) : (screenOf dom c).visible = true := rfl

theorem readScreen_eq_map (s : RegistryState) :
    readScreen s = (s.components.map Prod.snd).map (screenOf s.dom) := by
  unfold readScreen
  rw [foldl_push_map (screenOf s.dom)]
  simp

/-! ### Claim theorems -/

/-- C2: for every registered set and every query string q, find(q) returns
exactly the entries whose name or description contains q as a
case-insensitive substring, in registry insertion order (the insertion-order
filter of the map values), and find("") returns all entries. -/
theorem find_case_insensitive_substring_match (s : RegistryState)
    (q : String) :
    find s q = (s.components.map Prod.snd).filter (specNameOrDescContains q) ∧
    find s "" = s.components.map Prod.snd := by
  have hgen : ∀ q' : String,
      find s q' =
        (s.components.map Prod.snd).filter (specNameOrDescContains q') := by
    intro q'
    show (s.components.map Prod.snd).foldl
        (fun results component =>
          if findCond (lowerStr q') component then results ++ [component]
          else results) [] = _
    rw [foldl_push_filter (findCond (lowerStr q'))]
    rw [List.nil_append]
    exact List.filter_congr (fun c _ => findCond_eq_spec q' c)
  refine ⟨hgen q, ?_⟩
  rw [hgen ""]
  apply List.filter_eq_self.mpr
  intro c _
  unfold specNameOrDescContains
  have hl : lowerStr "" = "" := rfl
  rw [hl, jsIncludes_empty_sub]
  rfl

/-- C9: for every registered component, the ScreenComponent produced by
readScreen has visible = true unconditionally, whatever the state of the
DOM. -/
theorem readScreen_visible_hardcoded_true (s : RegistryState) :
    (readScreen s).all (fun sc => sc.visible) = true := by
  rw [readScreen_eq_map]
  apply List.all_eq_true.mpr
  intro sc hsc
  obtain ⟨c, _, rfl⟩ := List.mem_map.mp hsc
  rfl

/-- C3: execute(id, actionId, params) on a registered id returns true and
dispatches exactly one custom event on the target element whose detail is
(id, actionId, params or the empty object); on an unregistered id it
returns false and dispatches no event. -/
theorem execute_fire_and_forget (s : RegistryState) (id actionId : String)
    (params : Option (List (String × Json))) :
    (∀ c, mapGet s.components id = some c →
        (execute s id actionId params).1 = true ∧
        (execute s id actionId params).2.events =
          s.events ++
            [{ target := c.element, name := "hlas:execute",
               detail := { id := id, actionId := actionId,
                           params := params.getD [] } }]) ∧
    (mapGet s.components id = none →
        (execute s id actionId params).1 = false ∧
        (execute s id actionId params).2.events = s.events) := by
  constructor
  · intro c hc
    unfold execute
    rw [hc]
    exact ⟨rfl, rfl⟩
  · intro hc
    unfold execute
    rw [hc]
    exact ⟨rfl, rfl⟩

/-- Witness for C3 at a concrete state: a registered id dispatches the one
event, an unknown id dispatches nothing. -/
theorem execute_fire_and_forget_witness :
    (execute stReady1 "a" "press" none).1 = true ∧
    (execute stReady1 "a" "press" none).2.events =
      [{ target := elA, name := "hlas:execute",
         detail := { id := "a", actionId := "press", params := [] } }] ∧
    (execute stReady1 "zzz" "press" none).1 = false ∧
    (execute stReady1 "zzz" "press" none).2.events = [] := by
  have h := execute_fire_and_forget stReady1 "a" "press" none
  have h2 := execute_fire_and_forget stReady1 "zzz" "press" none
  have hfound := h.1
    { id := "a", element := elA, actions := [], name := "Alpha",
      description := none } rfl
  have hmiss := h2.2 rfl
  refine ⟨hfound.1, ?_, hmiss.1, ?_⟩
  · rw [hfound.2]; rfl
  · rw [hmiss.2]; rfl

theorem register_attr_id (s1 : RegistryState) (id : String) (el : Elem)
    (name : String) (actions : List ActionSchema)
    (description : Option String) :
    domGetAttr (register s1 id el name actions description).2.dom el.ref
      "data-hlas-id" = some id := by
  unfold register
  dsimp only
  cases actions with
  | nil =>
      rw [if_neg (by simp)]
      cases description with
      | none =>
          dsimp only
          rw [domGetAttr_setAttr_ne_key _ _ _ _ _ (by decide)]
          exact domGetAttr_setAttr_self _ _ _ _
      | some d =>
          dsimp only
          by_cases hd : d = ""
          · rw [if_pos (by simp [hd])]
            rw [domGetAttr_setAttr_ne_key _ _ _ _ _ (by decide)]
            exact domGetAttr_setAttr_self _ _ _ _
          · rw [if_neg (by simp [hd])]
            rw [domGetAttr_setAttr_ne_key _ _ _ _ _ (by decide)]
            rw [domGetAttr_setAttr_ne_key _ _ _ _ _ (by decide)]
            exact domGetAttr_setAttr_self _ _ _ _
  | cons a t =>
      rw [if_pos (by simp)]
      rw [domGetAttr_setAttr_ne_key _ _ _ _ _ (by decide)]
      cases description with
      | none =>
          dsimp only
          rw [domGetAttr_setAttr_ne_key _ _ _ _ _ (by decide)]
          exact domGetAttr_setAttr_self _ _ _ _
      | some d =>
          dsimp only
          by_cases hd : d = ""
          · rw [if_pos (by simp [hd])]
            rw [domGetAttr_setAttr_ne_key _ _ _ _ _ (by decide)]
            exact domGetAttr_setAttr_self _ _ _ _
          · rw [if_neg (by simp [hd])]
            rw [domGetAttr_setAttr_ne_key _ _ _ _ _ (by decide)]
            rw [domGetAttr_setAttr_ne_key _ _ _ _ _ (by decide)]
            exact domGetAttr_setAttr_self _ _ _ _

theorem register_attr_name (s1 : RegistryState) (id : String) (el : Elem)
    (name : String) (actions : List ActionSchema)
    (description : Option String) :
    domGetAttr (register s1 id el name actions description).2.dom el.ref
      "data-hlas-name" = some name := by
  unfold register
  dsimp only
  cases actions with
  | nil =>
      rw [if_neg (by simp)]
      cases description with
      | none =>
          dsimp only
          exact domGetAttr_setAttr_self _ _ _ _
      | some d =>
          dsimp only
          by_cases hd : d = ""
          · rw [if_pos (by simp [hd])]
            exact domGetAttr_setAttr_self _ _ _ _
          · rw [if_neg (by simp [hd])]
            rw [domGetAttr_setAttr_ne_key _ _ _ _ _ (by decide)]
            exact domGetAttr_setAttr_self _ _ _ _
  | cons a t =>
      rw [if_pos (by simp)]
      rw [domGetAttr_setAttr_ne_key _ _ _ _ _ (by decide)]
      cases description with
      | none =>
          dsimp only
          exact domGetAttr_setAttr_self _ _ _ _
      | some d =>
          dsimp only
          by_cases hd : d = ""
          · rw [if_pos (by simp [hd])]
            exact domGetAttr_setAttr_self _ _ _ _
          · rw [if_neg (by simp [hd])]
            rw [domGetAttr_setAttr_ne_key _ _ _ _ _ (by decide)]
            exact domGetAttr_setAttr_self _ _ _ _

theorem register_attr_description (s1 : RegistryState) (id : String)
    (el : Elem) (name : String) (actions : List ActionSchema)
    (description : Option String) :
    domGetAttr (register s1 id el name actions description).2.dom el.ref
      "data-hlas-description" =
      (match description with
       | some d =>
           if d = "" then domGetAttr s1.dom el.ref "data-hlas-description"
           else some d
       | none => domGetAttr s1.dom el.ref "data-hlas-description") := by
  unfold register
  dsimp only
  cases actions with
  | nil =>
      rw [if_neg (by simp)]
      cases description with
      | none =>
          dsimp only
          rw [domGetAttr_setAttr_ne_key _ _ _ _ _ (by decide)]
          exact domGetAttr_setAttr_ne_key _ _ _ _ _ (by decide)
      | some d =>
          dsimp only
          by_cases hd : d = ""
          · rw [if_pos (by simp [hd]), if_pos hd]
            rw [domGetAttr_setAttr_ne_key _ _ _ _ _ (by decide)]
            exact domGetAttr_setAttr_ne_key _ _ _ _ _ (by decide)
          · rw [if_neg (by simp [hd]), if_neg hd]
            exact domGetAttr_setAttr_self _ _ _ _
  | cons a t =>
      rw [if_pos (by simp)]
      rw [domGetAttr_setAttr_ne_key _ _ _ _ _ (by decide)]
      cases description with
      | none =>
          dsimp only
          rw [domGetAttr_setAttr_ne_key _ _ _ _ _ (by decide)]
          exact domGetAttr_setAttr_ne_key _ _ _ _ _ (by decide)
      | some d =>
          dsimp only
          by_cases hd : d = ""
          · rw [if_pos (by simp [hd]), if_pos hd]
            rw [domGetAttr_setAttr_ne_key _ _ _ _ _ (by decide)]
            exact domGetAttr_setAttr_ne_key _ _ _ _ _ (by decide)
          · rw [if_neg (by simp [hd]), if_neg hd]
            exact domGetAttr_setAttr_self _ _ _ _

theorem register_attr_actions (s1 : RegistryState) (id : String) (el : Elem)
    (name : String) (actions : List ActionSchema)
    (description : Option String) :
    domGetAttr (register s1 id el name actions description).2.dom el.ref
      "data-hlas-actions" =
      (if actions.length > 0 then
        some (String.intercalate "," (actions.map fun a => a.id))
      else domGetAttr s1.dom el.ref "data-hlas-actions") := by
  unfold register
  dsimp only
  cases actions with
  | nil =>
      rw [if_neg (by simp), if_neg (by simp)]
      cases description with
      | none =>
          dsimp only
          rw [domGetAttr_setAttr_ne_key _ _ _ _ _ (by decide)]
          exact domGetAttr_setAttr_ne_key _ _ _ _ _ (by decide)
      | some d =>
          dsimp only
          by_cases hd : d = ""
          · rw [if_pos (by simp [hd])]
            rw [domGetAttr_setAttr_ne_key _ _ _ _ _ (by decide)]
            exact domGetAttr_setAttr_ne_key _ _ _ _ _ (by decide)
          · rw [if_neg (by simp [hd])]
            rw [domGetAttr_setAttr_ne_key _ _ _ _ _ (by decide)]
            rw [domGetAttr_setAttr_ne_key _ _ _ _ _ (by decide)]
            exact domGetAttr_setAttr_ne_key _ _ _ _ _ (by decide)
  | cons a t =>
      rw [if_pos (by simp), if_pos (by simp)]
      exact domGetAttr_setAttr_self _ _ _ _

/-- Counterexample for C1: registering the same id a second time on the same
element with a different (namely absent) description does NOT replace the
element's DOM attribute markers entirely — the first call's description
marker persists although the second call supplied none (the entry itself
does reflect the second call). -/
theorem register_markers_not_fully_replaced :
    (register (register emptyState "a" elA "n1" [] (some "d1")).2
        "a" elA "n2" [] none).2.components.countP (fun p => p.1 == "a") = 1 ∧
    mapGet (register (register emptyState "a" elA "n1" [] (some "d1")).2
        "a" elA "n2" [] none).2.components "a" =
      some { id := "a", element := elA, actions := [], name := "n2",
             description := none } ∧
    domGetAttr (register (register emptyState "a" elA "n1" [] (some "d1")).2
        "a" elA "n2" [] none).2.dom elA.ref "data-hlas-description" =
      some "d1" := by
  exact ⟨rfl, rfl, rfl⟩

/-- C1 (amended): register(id, element, name, actions, description) returns
id unchanged, and registering the same id a second time leaves exactly one
entry for the id, reflecting the second call entirely.  The identifier and
name markers on the element are overwritten by the second call, but the
description marker is overwritten only when the second call supplies a
truthy (non-empty) description and the actions marker only when the second
call supplies a non-empty action list — a marker the second call does not
write keeps whatever value it had after the first call (a merge on the DOM
element, not a full replacement of its markers). -/
theorem register_lastWriteWins
    (s : RegistryState) (id : String) (el1 el2 : Elem) (n1 n2 : String)
    (a1 a2 : List ActionSchema) (d1 d2 : Option String)
    (hu : s.components.countP (fun p => p.1 == id) ≤ 1) :
    (register (register s id el1 n1 a1 d1).2 id el2 n2 a2 d2).1 = id ∧
    (register (register s id el1 n1 a1 d1).2 id el2 n2 a2
          d2).2.components.countP (fun p => p.1 == id) = 1 ∧
    mapGet (register (register s id el1 n1 a1 d1).2 id el2 n2 a2
          d2).2.components id =
      some { id := id, element := el2, actions := a2, name := n2,
             description := d2 } ∧
    domGetAttr (register (register s id el1 n1 a1 d1).2 id el2 n2 a2
          d2).2.dom el2.ref "data-hlas-id" = some id ∧
    domGetAttr (register (register s id el1 n1 a1 d1).2 id el2 n2 a2
          d2).2.dom el2.ref "data-hlas-name" = some n2 ∧
    (∀ d, d2 = some d → d ≠ "" →
      domGetAttr (register (register s id el1 n1 a1 d1).2 id el2 n2 a2
            d2).2.dom el2.ref "data-hlas-description" = some d) ∧
    (d2 = none →
      domGetAttr (register (register s id el1 n1 a1 d1).2 id el2 n2 a2
            d2).2.dom el2.ref "data-hlas-description" =
        domGetAttr (register s id el1 n1 a1 d1).2.dom el2.ref
          "data-hlas-description") ∧
    (a2 ≠ [] →
      domGetAttr (register (register s id el1 n1 a1 d1).2 id el2 n2 a2
            d2).2.dom el2.ref "data-hlas-actions" =
        some (String.intercalate "," (a2.map fun a => a.id))) ∧
    (a2 = [] →
      domGetAttr (register (register s id el1 n1 a1 d1).2 id el2 n2 a2
            d2).2.dom el2.ref "data-hlas-actions" =
        domGetAttr (register s id el1 n1 a1 d1).2.dom el2.ref
          "data-hlas-actions") := by
  have hcomp1 : (register s id el1 n1 a1 d1).2.components =
      mapSet s.components id
        { id := id, element := el1, actions := a1, name := n1,
          description := d1 } := rfl
  have hcount1 : (register s id el1 n1 a1 d1).2.components.countP
      (fun p => p.1 == id) = 1 := by
    rw [hcomp1]; exact countP_mapSet _ _ _ hu
  have hcomp2 : (register (register s id el1 n1 a1 d1).2 id el2 n2 a2
        d2).2.components =
      mapSet (register s id el1 n1 a1 d1).2.components id
        { id := id, element := el2, actions := a2, name := n2,
          description := d2 } := rfl
  refine ⟨rfl, ?_, ?_, ?_, ?_, ?_, ?_, ?_, ?_⟩
  · rw [hcomp2]
    exact countP_mapSet _ _ _ (le_of_eq hcount1)
  · rw [hcomp2]
    exact mapGet_mapSet_self _ _ _
  · exact register_attr_id _ _ _ _ _ _
  · exact register_attr_name _ _ _ _ _ _
  · intro d hd hde
    subst hd
    rw [register_attr_description]
    exact if_neg hde
  · intro hd
    subst hd
    exact register_attr_description _ _ _ _ _ _
  · intro ha
    rw [register_attr_actions]
    cases a2 with
    | nil => exact absurd rfl ha
    | cons a t => exact if_pos (by simp)
  · intro ha
    subst ha
    rw [register_attr_actions]
    exact if_neg (by simp)

/-- Witness for C1 at concrete inputs: re-registering id a with a new name,
description and actions leaves one entry reflecting the second call, with
all four markers overwritten. -/
theorem register_lastWriteWins_witness :
    (register (register emptyState "a" elA "n1" [] (some "d1")).2 "a" elA
        "n2" [actSave] (some "d2")).1 = "a" ∧
    (register (register emptyState "a" elA "n1" [] (some "d1")).2 "a" elA
        "n2" [actSave] (some "d2")).2.components.countP
      (fun p => p.1 == "a") = 1 ∧
    mapGet (register (register emptyState "a" elA "n1" [] (some "d1")).2
        "a" elA "n2" [actSave] (some "d2")).2.components "a" =
      some { id := "a", element := elA, actions := [actSave], name := "n2",
             description := some "d2" } ∧
    domGetAttr (register (register emptyState "a" elA "n1" [] (some "d1")).2
        "a" elA "n2" [actSave] (some "d2")).2.dom elA.ref
      "data-hlas-description" = some "d2" ∧
    domGetAttr (register (register emptyState "a" elA "n1" [] (some "d1")).2
        "a" elA "n2" [actSave] (some "d2")).2.dom elA.ref
      "data-hlas-actions" = some "save" := by
  have h := register_lastWriteWins emptyState "a" elA elA "n1" "n2" []
    [actSave] (some "d1") (some "d2") (by decide)
  refine ⟨h.1, h.2.1, h.2.2.1, ?_, ?_⟩
  · exact h.2.2.2.2.2.1 "d2" rfl (by decide)
  · have hx := h.2.2.2.2.2.2.2.1 (by simp)
    rw [hx]; rfl

theorem filterMap_all_none {α β : Type} (f : α → Option β) (l : List α)
    (h : ∀ a ∈ l, f a = none) : l.filterMap f = [] := by
  induction l with
  | nil => rfl
  | cons a t ih =>
      rw [List.filterMap_cons, h a (by simp)]
      exact ih (fun x hx => h x (by simp [hx]))

theorem filterMap_all_some {α β : Type} (f : α → Option β) (g : α → β)
    (l : List α) (h : ∀ a ∈ l, f a = some (g a)) :
    l.filterMap f = l.map g := by
  induction l with
  | nil => rfl
  | cons a t ih =>
      rw [List.filterMap_cons, h a (by simp), List.map_cons]
      rw [ih (fun x hx => h x (by simp [hx]))]

/-- C4: startTour skips each step whose id does not resolve to a registered
component, logging one warning per skipped step (non-fatal), and when zero
steps resolve it logs an error and returns false without constructing any
new tour-driver instance, leaving tour-active false. -/
theorem startTour_all_invalid (s : RegistryState) (steps : List TourStep)
    (autoStart : Bool)
    (hinv : s.activeTour = true → s.tourDriverInstance ≠ none)
    (hnone : ∀ st ∈ steps, mapGet s.components st.id = none) :
    (startTour s steps autoStart).1 = false ∧
    (startTour s steps autoStart).2.driversCreated = s.driversCreated ∧
    (startTour s steps autoStart).2.activeTour = false ∧
    (startTour s steps autoStart).2.log =
      s.log ++ steps.map (fun st => LogEntry.warnStepNotFound st.id) ++
        [LogEntry.errorNoValidSteps] := by
  cases ht : s.tourDriverInstance with
  | some td =>
      have hres : resolveTourSteps
          { s with tourDriverInstance := some td.destroyCall,
                   activeTour := false } steps =
          ([], steps.map (fun st => LogEntry.warnStepNotFound st.id)) := by
        rw [resolveTourSteps_eq]
        refine Prod.ext ?_ ?_
        · exact filterMap_all_none _ _
            (fun st hst => by simp [resolveStep, hnone st hst])
        · exact filterMap_all_some _ _ _
            (fun st hst => by simp [stepWarning, hnone st hst])
      unfold startTour
      rw [ht]
      dsimp only
      rw [hres]
      dsimp only
      rw [if_pos (by simp)]
      refine ⟨rfl, rfl, rfl, ?_⟩
      simp
  | none =>
      have hact : s.activeTour = false := by
        rcases Bool.eq_false_or_eq_true s.activeTour with h | h
        · exact absurd ht (hinv h)
        · exact h
      have hres : resolveTourSteps s steps =
          ([], steps.map (fun st => LogEntry.warnStepNotFound st.id)) := by
        rw [resolveTourSteps_eq]
        refine Prod.ext ?_ ?_
        · exact filterMap_all_none _ _
            (fun st hst => by simp [resolveStep, hnone st hst])
        · exact filterMap_all_some _ _ _
            (fun st hst => by simp [stepWarning, hnone st hst])
      unfold startTour
      rw [ht]
      dsimp only
      rw [hres]
      dsimp only
      rw [if_pos (by simp)]
      refine ⟨rfl, rfl, hact, ?_⟩
      simp

/-- Witness for C4: a tour whose single step references a missing id
returns false, constructs no driver, leaves tour-active false and logs the
warning and the error. -/
theorem startTour_all_invalid_witness :
    (startTour emptyState [stepMissing] true).1 = false ∧
    (startTour emptyState [stepMissing] true).2.driversCreated = 0 ∧
    (startTour emptyState [stepMissing] true).2.activeTour = false ∧
    (startTour emptyState [stepMissing] true).2.log =
      [LogEntry.warnStepNotFound "missing", LogEntry.errorNoValidSteps] := by
  have h := startTour_all_invalid emptyState [stepMissing] true
    (fun hx => absurd hx (by decide)) (fun st _ => rfl)
  refine ⟨h.1, h.2.1, h.2.2.1, ?_⟩
  rw [h.2.2.2]
  rfl

theorem resolveStep_formula (s : RegistryState) (st : TourStep) :
    resolveStep s st =
      (mapGet s.components st.id).bind (fun c =>
        if c.element.isHTML then
          some { element := c.element,
                 popover :=
                   { title :=
                       match st.title with
                       | some t => if t = "" then c.name else t
                       | none => c.name,
                     description :=
                       match st.description with
                       | some dd =>
                           if dd = "" then
                             match c.description with
                             | some cd => if cd = "" then "" else cd
                             | none => ""
                           else dd
                       | none =>
                           match c.description with
                           | some cd => if cd = "" then "" else cd
                           | none => "",
                     side := st.position.getD Side.bottom,
                     align := st.align.getD Align.center } }
        else none) := by
  unfold resolveStep
  cases hm : mapGet s.components st.id with
  | none => rfl
  | some c =>
      dsimp only [Option.bind]
      rcases Bool.eq_false_or_eq_true c.element.isHTML with hh | hh
      · rw [if_pos hh, if_pos hh]
        unfold mkDriverStep jsOrStr
        refine congrArg some ?_
        refine congrArg (DriverStep.mk c.element) ?_
        have htitle :
            (match st.title with
             | some t => if t == "" then c.name else t
             | none => c.name) =
            (match st.title with
             | some t => if t = "" then c.name else t
             | none => c.name) := by
          cases st.title with
          | none => rfl
          | some t => by_cases h : t = "" <;> simp [h]
        have hdesc :
            (match st.description with
             | some dd =>
                 if dd == "" then
                   match c.description with
                   | some cd => if cd == "" then "" else cd
                   | none => ""
                 else dd
             | none =>
                 match c.description with
                 | some cd => if cd == "" then "" else cd
                 | none => "") =
            (match st.description with
             | some dd =>
                 if dd = "" then
                   match c.description with
                   | some cd => if cd = "" then "" else cd
                   | none => ""
                 else dd
             | none =>
                 match c.description with
                 | some cd => if cd = "" then "" else cd
                 | none => "") := by
          cases st.description with
          | none =>
              cases c.description with
              | none => rfl
              | some cd => by_cases h : cd = "" <;> simp [h]
          | some dd =>
              by_cases h : dd = ""
              · cases c.description with
                | none => simp [h]
                | some cd => by_cases h2 : cd = "" <;> simp [h, h2]
              · simp [h]
        rw [← htitle, ← hdesc]
      · simp [hh]

/-- Counterexample for C5: a tour step with an explicitly supplied
empty-string title and description does NOT keep them — startTour builds
the popover from the component's name and description instead (JS ||
defaulting). -/
theorem startTour_empty_strings_not_kept :
    ((startTour c5State [c5StepEmptyStrings] true).2.tourDriverInstance.map
      (fun td => td.steps.map (fun ds => ds.popover.title))) = some ["N"] ∧
    ((startTour c5State [c5StepEmptyStrings] true).2.tourDriverInstance.map
      (fun td => td.steps.map (fun ds => ds.popover.description))) =
      some ["D"] ∧
    "N" ≠ "" ∧ "D" ≠ "" := by
  exact ⟨rfl, rfl, by decide, by decide⟩

/-- C5 (amended): for every resolving tour step, startTour builds its driver
step as {element, popover} where popover.title is step.title when that is a
non-empty string and component.name otherwise, popover.description is
step.description when non-empty, else component.description when non-empty,
else the empty string, popover.side = step.position ?? bottom and
popover.align = step.align ?? center (JS || defaulting: an explicitly
supplied empty-string title or description falls back exactly like an
absent one). -/
theorem startTour_popover_defaults (s : RegistryState)
    (steps : List TourStep) (autoStart : Bool)
    (h : (startTour s steps autoStart).1 = true) :
    (startTour s steps autoStart).2.tourDriverInstance.map TourDriver.steps =
      some (steps.filterMap (fun st =>
        (mapGet s.components st.id).bind (fun c =>
          if c.element.isHTML then
            some { element := c.element,
                   popover :=
                     { title :=
                         match st.title with
                         | some t => if t = "" then c.name else t
                         | none => c.name,
                       description :=
                         match st.description with
                         | some dd =>
                             if dd = "" then
                               match c.description with
                               | some cd => if cd = "" then "" else cd
                               | none => ""
                             else dd
                         | none =>
                             match c.description with
                             | some cd => if cd = "" then "" else cd
                             | none => "",
                       side := st.position.getD Side.bottom,
                       align := st.align.getD Align.center } }
          else none))) := by
  have hsteps : ∀ s1 : RegistryState, s1.components = s.components →
      (resolveTourSteps s1 steps).1 =
        steps.filterMap (fun st =>
          (mapGet s.components st.id).bind (fun c =>
            if c.element.isHTML then
              some { element := c.element,
                     popover :=
                       { title :=
                           match st.title with
                           | some t => if t = "" then c.name else t
                           | none => c.name,
                         description :=
                           match st.description with
                           | some dd =>
                               if dd = "" then
                                 match c.description with
                                 | some cd => if cd = "" then "" else cd
                                 | none => ""
                               else dd
                           | none =>
                               match c.description with
                               | some cd => if cd = "" then "" else cd
                               | none => "",
                         side := st.position.getD Side.bottom,
                         align := st.align.getD Align.center } }
            else none)) := by
    intro s1 hcomp
    rw [resolveTourSteps_eq]
    refine List.filterMap_congr ?_
    intro st _
    rw [resolveStep_formula, hcomp]
  cases ht : s.tourDriverInstance with
  | some td =>
      revert h
      unfold startTour
      rw [ht]
      dsimp only
      cases hempty : ((resolveTourSteps
          { s with tourDriverInstance := some td.destroyCall,
                   activeTour := false } steps).1).isEmpty with
      | true =>
          rw [if_pos (by simp [hempty])]
          intro h
          exact absurd h (by simp)
      | false =>
          rw [if_neg (by simp [hempty])]
          intro _
          have hs := hsteps
            { s with tourDriverInstance := some td.destroyCall,
                     activeTour := false } rfl
          cases hauto : autoStart <;> simp [hauto, hs]
  | none =>
      revert h
      unfold startTour
      rw [ht]
      dsimp only
      cases hempty : ((resolveTourSteps s steps).1).isEmpty with
      | true =>
          rw [if_pos (by simp [hempty])]
          intro h
          exact absurd h (by simp)
      | false =>
          rw [if_neg (by simp [hempty])]
          intro _
          have hs := hsteps s rfl
          cases hauto : autoStart <;> simp [hauto, hs]

/-- Witness for C5: a bare tour step for component a (name N, description D)
resolves to a popover titled N with description D, side bottom, align
center. -/
theorem startTour_popover_defaults_witness :
    (startTour c5State [c5StepBare] true).2.tourDriverInstance.map
        TourDriver.steps =
      some [{ element := elA,
              popover := { title := "N", description := "D",
                           side := Side.bottom, align := Align.center } }] := by
  have h := startTour_popover_defaults c5State [c5StepBare] true rfl
  rw [h]
  rfl

theorem highlight_success_state (s : RegistryState) (id : String)
    (c : ComponentEntry) (d : DriverInstance) (duration : Int)
    (title description : Option String)
    (hc : mapGet s.components id = some c)
    (hhtml : c.element.isHTML = true)
    (hdrv : s.highlightDriverInstance = some d) :
    highlight s id duration title description =
      (true,
       { s with
          highlightDriverInstance := some
            ((d.destroyCall).highlightOp
              { element := c.element, title := title,
                description := description }),
          timers :=
            if duration > 0 then s.timers ++ [s.now + duration]
            else s.timers }) := by
  unfold highlight
  rw [hc]
  dsimp only
  have hcond : (s.highlightDriverInstance.isNone && s.windowAvailable) =
      false := by
    rw [hdrv]
    rfl
  rw [if_neg (by simp [hcond])]
  rw [hdrv]
  dsimp only
  rw [if_pos hhtml]
  by_cases hdur : duration > 0
  · rw [if_pos hdur, if_pos hdur]
  · rw [if_neg hdur, if_neg hdur]

/-- C6: on a registered id with a live highlight driver and an empty timer
queue, highlight with duration > 0 schedules exactly one automatic teardown,
firing after duration milliseconds and not before, while any duration <= 0
schedules no teardown, so the overlay survives any advance of simulated
time. -/
theorem highlight_timer_schedule (s : RegistryState) (id : String)
    (c : ComponentEntry) (d : DriverInstance) (duration : Int)
    (title description : Option String)
    (hc : mapGet s.components id = some c)
    (hhtml : c.element.isHTML = true)
    (hdrv : s.highlightDriverInstance = some d)
    (htimers : s.timers = []) :
    (highlight s id duration title description).1 = true ∧
    (0 < duration →
      (highlight s id duration title description).2.timers =
        [s.now + duration] ∧
      (∀ t : Nat, (t : Int) < duration →
        ((advanceTime (highlight s id duration title description).2
            t).highlightDriverInstance.bind DriverInstance.overlay) =
          some { element := c.element, title := title,
                 description := description }) ∧
      (∀ t : Nat, duration ≤ (t : Int) →
        ((advanceTime (highlight s id duration title description).2
            t).highlightDriverInstance.bind DriverInstance.overlay) =
          none ∧
        (advanceTime (highlight s id duration title description).2
            t).timers = [])) ∧
    (duration ≤ 0 →
      (highlight s id duration title description).2.timers = [] ∧
      (∀ t : Nat,
        ((advanceTime (highlight s id duration title description).2
            t).highlightDriverInstance.bind DriverInstance.overlay) =
          some { element := c.element, title := title,
                 description := description })) := by
  have hR := highlight_success_state s id c d duration title description
    hc hhtml hdrv
  refine ⟨by rw [hR], ?_, ?_⟩
  · intro hdur
    have htim : (highlight s id duration title description).2.timers =
        [s.now + duration] := by
      rw [hR]
      dsimp only
      rw [if_pos hdur, htimers]
      rfl
    refine ⟨htim, ?_, ?_⟩
    · intro t ht
      unfold advanceTime
      rw [htim, hR]
      dsimp only
      have hno : (decide (s.now + duration ≤ s.now + (t : Int))) = false := by
        simp only [decide_eq_false_iff_not]
        omega
      rw [List.filter_cons, hno]
      dsimp only [List.filter_nil, List.foldl_nil]
      rfl
    · intro t ht
      unfold advanceTime
      rw [htim, hR]
      dsimp only
      have hyes : (decide (s.now + duration ≤ s.now + (t : Int))) = true := by
        simp only [decide_eq_true_eq]
        omega
      have hno : (decide (s.now + (t : Int) < s.now + duration)) = false := by
        simp only [decide_eq_false_iff_not]
        omega
      rw [List.filter_cons, hyes, List.filter_cons, hno]
      dsimp only [List.filter_nil, List.foldl_cons, List.foldl_nil]
      exact ⟨rfl, rfl⟩
  · intro hdur
    have htim : (highlight s id duration title description).2.timers = [] := by
      rw [hR]
      dsimp only
      rw [if_neg (by omega), htimers]
    refine ⟨htim, ?_⟩
    intro t
    unfold advanceTime
    rw [htim, hR]
    dsimp only [List.filter_nil, List.foldl_nil]
    rfl

/-- Witness for C6: highlighting component a for 5 ms schedules one teardown;
after 3 ms the overlay is still shown, after 5 ms it is gone; highlighting
with duration 0 schedules nothing and survives 1000000 ms. -/
theorem highlight_timer_schedule_witness :
    (highlight stReady1 "a" 5 none none).1 = true ∧
    (highlight stReady1 "a" 5 none none).2.timers = [5] ∧
    ((advanceTime (highlight stReady1 "a" 5 none none).2
        3).highlightDriverInstance.bind DriverInstance.overlay) =
      some { element := elA, title := none, description := none } ∧
    ((advanceTime (highlight stReady1 "a" 5 none none).2
        5).highlightDriverInstance.bind DriverInstance.overlay) = none ∧
    (highlight stReady1 "a" 0 none none).2.timers = [] ∧
    ((advanceTime (highlight stReady1 "a" 0 none none).2
        1000000).highlightDriverInstance.bind DriverInstance.overlay) =
      some { element := elA, title := none, description := none } := by
  have h5 := highlight_timer_schedule stReady1 "a"
    { id := "a", element := elA, actions := [], name := "Alpha",
      description := none } DriverInstance.fresh 5 none none rfl rfl rfl rfl
  have h0 := highlight_timer_schedule stReady1 "a"
    { id := "a", element := elA, actions := [], name := "Alpha",
      description := none } DriverInstance.fresh 0 none none rfl rfl rfl rfl
  have h5pos := h5.2.1 (by decide)
  have h0neg := h0.2.2 (by decide)
  refine ⟨h5.1, ?_, ?_, ?_, h0neg.1, h0neg.2 1000000⟩
  · rw [h5pos.1]
    rfl
  · exact h5pos.2.1 3 (by decide)
  · exact (h5pos.2.2 5 (by decide)).1

/-- C7: every successful highlight call first tears down the currently-shown
overlay before showing the new one, so after highlight(a) then highlight(b)
the driver trace shows destroy-then-show twice and only b's overlay is
visible. -/
theorem highlight_mutual_exclusion (s : RegistryState) (a b : String)
    (ca cb : ComponentEntry) (d : DriverInstance) (da db : Int)
    (ta dsa tb dsb : Option String)
    (hca : mapGet s.components a = some ca)
    (hcb : mapGet s.components b = some cb)
    (hahtml : ca.element.isHTML = true)
    (hbhtml : cb.element.isHTML = true)
    (hdrv : s.highlightDriverInstance = some d) :
    (highlight (highlight s a da ta dsa).2 b db tb dsb).1 = true ∧
    (highlight (highlight s a da ta dsa).2 b db tb
        dsb).2.highlightDriverInstance =
      some { trace := d.trace ++
               [DriverCall.destroy,
                DriverCall.highlightCall
                  { element := ca.element, title := ta, description := dsa },
                DriverCall.destroy,
                DriverCall.highlightCall
                  { element := cb.element, title := tb, description := dsb }],
             overlay := some { element := cb.element, title := tb,
                               description := dsb } } := by
  have h1 := highlight_success_state s a ca d da ta dsa hca hahtml hdrv
  have hcomp : (highlight s a da ta dsa).2.components = s.components := by
    rw [h1]
  have hcb2 : mapGet (highlight s a da ta dsa).2.components b = some cb := by
    rw [hcomp]
    exact hcb
  have hdrv2 : (highlight s a da ta dsa).2.highlightDriverInstance =
      some ((d.destroyCall).highlightOp
        { element := ca.element, title := ta, description := dsa }) := by
    rw [h1]
  have h2 := highlight_success_state (highlight s a da ta dsa).2 b cb
    ((d.destroyCall).highlightOp
      { element := ca.element, title := ta, description := dsa })
    db tb dsb hcb2 hbhtml hdrv2
  refine ⟨by rw [h2], ?_⟩
  rw [h2]
  dsimp only [DriverInstance.destroyCall, DriverInstance.highlightOp]
  simp [List.append_assoc]

/-- Witness for C7: with a and b registered, highlighting a then b leaves
the driver showing b's overlay, with the trace destroy, show a, destroy,
show b. -/
theorem highlight_mutual_exclusion_witness :
    (highlight (highlight stReady2 "a" 0 none none).2 "b" 0 none
        none).1 = true ∧
    (highlight (highlight stReady2 "a" 0 none none).2 "b" 0 none
        none).2.highlightDriverInstance =
      some { trace :=
               [DriverCall.destroy,
                DriverCall.highlightCall
                  { element := elA, title := none, description := none },
                DriverCall.destroy,
                DriverCall.highlightCall
                  { element := elB, title := none, description := none }],
             overlay := some { element := elB, title := none,
                               description := none } } := by
  have h := highlight_mutual_exclusion stReady2 "a" "b"
    { id := "a", element := elA, actions := [], name := "Alpha",
      description := none }
    { id := "b", element := elB, actions := [], name := "Beta",
      description := none }
    DriverInstance.fresh 0 0 none none none none rfl rfl rfl rfl rfl
  refine ⟨h.1, ?_⟩
  rw [h.2]
  rfl

/-- C10: highlight can return false even for a registered id — with no
highlight driver instance and no window to create one, it returns false
without logging and without touching the state at all; and highlight
returns true only when the id is registered and a driver instance is
available afterwards. -/
theorem highlight_requires_driver (s : RegistryState) (id : String)
    (duration : Int) (title description : Option String) :
    ((mapGet s.components id).isSome = true →
      s.highlightDriverInstance = none → s.windowAvailable = false →
      (highlight s id duration title description).1 = false ∧
      (highlight s id duration title description).2 = s) ∧
    ((highlight s id duration title description).1 = true →
      (mapGet s.components id).isSome = true ∧
      (highlight s id duration title description).2.highlightDriverInstance ≠
        none) := by
  constructor
  · intro hsome hdrv hwin
    cases hm : mapGet s.components id with
    | none => rw [hm] at hsome; simp at hsome
    | some c =>
        unfold highlight
        rw [hm]
        dsimp only
        have hcond : (s.highlightDriverInstance.isNone &&
            s.windowAvailable) = false := by
          rw [hwin]
          simp
        rw [if_neg (by simp [hcond])]
        rw [hdrv]
        exact ⟨rfl, rfl⟩
  · intro htrue
    cases hm : mapGet s.components id with
    | none =>
        rw [show (highlight s id duration title description).1 = false from by
          unfold highlight; rw [hm]] at htrue
        exact absurd htrue (by simp)
    | some c =>
        refine ⟨rfl, ?_⟩
        revert htrue
        unfold highlight
        rw [hm]
        dsimp only
        cases hcond : (s.highlightDriverInstance.isNone &&
            s.windowAvailable) with
        | true =>
            rw [if_pos (by simp [hcond])]
            dsimp only
            rcases Bool.eq_false_or_eq_true c.element.isHTML with hh | hh
            · rw [if_pos hh]
              intro _
              by_cases hdur : duration > 0
              · rw [if_pos hdur]
                simp
              · rw [if_neg hdur]
                simp
            · rw [if_neg (by simp [hh])]
              intro htrue
              exact absurd htrue (by simp)
        | false =>
            rw [if_neg (by simp [hcond])]
            cases hd : s.highlightDriverInstance with
            | none =>
                intro htrue
                exact absurd htrue (by simp)
            | some d =>
                dsimp only
                rcases Bool.eq_false_or_eq_true c.element.isHTML with hh | hh
                · rw [if_pos hh]
                  intro _
                  by_cases hdur : duration > 0
                  · rw [if_pos hdur]
                    simp
                  · rw [if_neg hdur]
                    simp
                · rw [if_neg (by simp [hh])]
                  intro htrue
                  exact absurd htrue (by simp)

/-- Witness for C10: in a windowless registry with component a registered,
highlight(a) returns false and leaves the state untouched (no log entry, no
overlay). -/
theorem highlight_requires_driver_witness :
    (highlight stNoWin "a" 2000 none none).1 = false ∧
    (highlight stNoWin "a" 2000 none none).2 = stNoWin := by
  have h := highlight_requires_driver stNoWin "a" 2000 none none
  exact h.1 rfl rfl rfl

/-- C8: readScreen projects every registered component in insertion order;
content is recovered from the element's data-hlas-content attribute by
first attempting a JSON parse and falling back to the raw attribute string
on parse failure; the attribute holding the key/value JSON object parses
to the object, and the non-JSON string Simple text content falls back to
that exact string. -/
theorem readScreen_content_recovery (s : RegistryState) :
    readScreen s = (s.components.map Prod.snd).map (screenOf s.dom) ∧
    (∀ (dom : List (Nat × List (String × String))) (c : ComponentEntry)
        (a : String),
      domGetAttr dom c.element.ref "data-hlas-content" = some a → a ≠ "" →
      (screenOf dom c).content =
        (match jsonParse a with
         | some j => some (Sum.inl j)
         | none => some (Sum.inr a))) ∧
    jsonParse "\x7b\x22key\x22:\x22value\x22\x7d" =
      some (Json.obj [("key", Json.str "value")]) ∧
    jsonParse "Simple text content" = none ∧
    (∀ (dom : List (Nat × List (String × String))) (c : ComponentEntry),
      domGetAttr dom c.element.ref "data-hlas-content" =
          some "\x7b\x22key\x22:\x22value\x22\x7d" →
      (screenOf dom c).content =
        some (Sum.inl (Json.obj [("key", Json.str "value")]))) ∧
    (∀ (dom : List (Nat × List (String × String))) (c : ComponentEntry),
      domGetAttr dom c.element.ref "data-hlas-content" =
          some "Simple text content" →
      (screenOf dom c).content = some (Sum.inr "Simple text content")) := by
  have hgen : ∀ (dom : List (Nat × List (String × String)))
      (c : ComponentEntry) (a : String),
      domGetAttr dom c.element.ref "data-hlas-content" = some a → a ≠ "" →
      (screenOf dom c).content =
        (match jsonParse a with
         | some j => some (Sum.inl j)
         | none => some (Sum.inr a)) := by
    intro dom c a ha hne
    unfold screenOf
    rw [ha]
    dsimp only
    rw [if_neg (by simp [hne])]
  refine ⟨readScreen_eq_map s, hgen, rfl, rfl, ?_, ?_⟩
  · intro dom c ha
    rw [hgen dom c _ ha (by decide)]
    rfl
  · intro dom c ha
    rw [hgen dom c _ ha (by decide)]
    rfl

/-- Witness for C8 on a concrete registry: component j carries the JSON
object marker and yields the parsed object; component r carries the bare
string and yields the raw string. -/
theorem readScreen_content_recovery_witness :
    (screenOf c8State.dom
        { id := "j", element := elA, actions := [], name := "JsonComp",
          description := none }).content =
      some (Sum.inl (Json.obj [("key", Json.str "value")])) ∧
    (screenOf c8State.dom
        { id := "r", element := elB, actions := [], name := "RawComp",
          description := none }).content =
      some (Sum.inr "Simple text content") := by
  have h := readScreen_content_recovery c8State
  exact ⟨h.2.2.2.2.1 c8State.dom _ rfl, h.2.2.2.2.2 c8State.dom _ rfl⟩

end Hlas
